import Mathlib

/-!
Shallow embedding of the sentry-k8s-operator reconciliation core.

Sources embedded here:
* `internal/controller/sentryproject_controller.go` — the `Reconcile` driver and
  its helpers (`CreateSentryProject`, `DeleteSentryProject`, `UpdateStatus`,
  `UpdateFinalizer`, `RemoveFinalizer`).
* `api/v1alpha1/sentryproject_types.go` and `api/v1alpha1/condition_types.go` —
  the resource schema (`SentryProjectSpec`, `SentryProjectStatus`,
  `Condition`, `GetReadyCondition`, `IsProjectCreated`).

The repository carries two revisions of the status schema: the one the
controller compiles against (fields `State`, `Message`, enum constants
`Created`/`Pending`/`Failed`/`Deleted`/`Conflict`/…) and the one in
`api/v1alpha1/sentryproject_types.go` (fields `Conditions`, `Slug`, plus a
`ConflictPolicy` field on the spec). The embedded `SentryProjectStatus` below
carries all four fields, one per cited source line; each embedded function
touches exactly the fields its Go source touches.

Modelling conventions:
* Remote calls are modelled by an outcome supplied as input to the pass
  (`RemoteOutcome`): either success or an error message together with the
  optional transport response status code (`none` models a nil response).
* Local persistence (the k8s client's `Update` / `Status().Update`) is
  modelled as always succeeding; every write is recorded as an `Event` in the
  pass's trace, in program order, so ordering and occurrence claims are stated
  over the trace. Because writes always succeed, the persisted resource at any
  point of the pass is the in-memory object as of the last recorded write.
-/

/-- Status strings of the controller-era schema (`SentryProjectCrStatus` is a
Go string type). -/
abbrev SentryProjectCrStatus := String

/-- Created means the project has been created in Sentry. -/
def Created : SentryProjectCrStatus := "Created"

/-- Pending means the project is pending creation in Sentry. -/
def Pending : SentryProjectCrStatus := "Pending"

/-- Failed means the project creation has failed in Sentry. -/
def Failed : SentryProjectCrStatus := "Failed"

/-- Deleted means the project has been deleted in Sentry. -/
def Deleted : SentryProjectCrStatus := "Deleted"

/-- Conflict means the project creation has failed due to a conflict in Sentry. -/
def Conflict : SentryProjectCrStatus := "Conflict"

/-- Modelled from the spec: the constant `NoTeam` is referenced by the
controller's error classification but its declaration is not under `src`;
the spec's classification table calls the 404 phase `NoTeam`. -/
def NoTeam : SentryProjectCrStatus := "NoTeam"

/-- Modelled from the spec: the constant `Forbiden` is referenced by the
controller's error classification but its declaration is not under `src`;
the spec's classification table calls the 403 phase `Forbidden`, the
controller identifier spells it `Forbiden`. -/
def Forbiden : SentryProjectCrStatus := "Forbiden"

/-- Modelled from the spec: the constant `BadRequest` is referenced by the
controller's error classification but its declaration is not under `src`;
the spec's classification table calls the 400 phase `BadRequest`. -/
def BadRequest : SentryProjectCrStatus := "BadRequest"

/-- ConflictPolicy is a Go string type (`api/v1alpha1/condition_types.go`
revision of the spec schema). -/
abbrev ConflictPolicy := String

/-- Ignore means the operator will ignore the conflict and continue. -/
def Ignore : ConflictPolicy := "Ignore"

/-- Update means the operator will update the project in Sentry. -/
def Update : ConflictPolicy := "Update"

/-- Fail means the operator will fail the project creation in Sentry. -/
def Fail : ConflictPolicy := "Fail"

/-- ConditionType is a Go string type; `Ready` is its only constant. -/
abbrev ConditionType := String

/-- Ready means the resource is ready. -/
def Ready : ConditionType := "Ready"

/-- Condition describes the state of a resource at a certain point
(`api/v1alpha1/condition_types.go`). The `status` field is one of
"True", "False", "Unknown". -/
structure Condition where
  type : String
  status : String
  message : String
  lastTransitionTime : String
deriving DecidableEq, Repr

/-- SentryProjectSpec defines the desired state of SentryProject. The
`conflictPolicy` field comes from the `api/v1alpha1` revision of the schema;
the controller never reads it. -/
structure SentryProjectSpec where
  name : String
  slug : String
  team : String
  platform : String
  organization : String
  conflictPolicy : ConflictPolicy
deriving DecidableEq, Repr

/-- SentryProjectStatus, merging the two schema revisions found in the
repository: `state`/`message` are the fields the controller reads and writes;
`conditions`/`slug` are the fields of `api/v1alpha1/sentryproject_types.go`
(lines 74-78), which no controller code path writes. -/
structure SentryProjectStatus where
  state : SentryProjectCrStatus
  message : String
  conditions : List Condition
  slug : String
deriving DecidableEq, Repr

/-- The parts of ObjectMeta the controller uses: the finalizer list and
whether the deletion timestamp is zero (deletion not requested). -/
structure ObjectMeta where
  finalizers : List String
  deletionTimestampIsZero : Bool
deriving DecidableEq, Repr

/-- SentryProject is the Schema for the sentryprojects API. -/
structure SentryProject where
  meta : ObjectMeta
  spec : SentryProjectSpec
  status : SentryProjectStatus
deriving DecidableEq, Repr

/-- SentryProjectFinalizer is the name of the finalizer added to resources for
deletion. -/
def SentryProjectFinalizer : String := "sentry.io.x42r/finalizer"

/-- Modelled from the spec: the slice helper `containsString` the controller
calls is not under `src`; per the spec it is the containment check on the
finalizer set of strings. -/
def containsString (slice : List String) (s : String) : Bool :=
  decide (s ∈ slice)

/-- Modelled from the spec: the slice helper `removeString` the controller
calls is not under `src`; per the spec it removes the string from the
finalizer set of strings. -/
def removeString (slice : List String) (s : String) : List String :=
  slice.filter (fun x => decide (¬ x = s))

/-- Outcome of a remote call, supplied by the environment: success, or an
error message together with the optional transport response code (`none`
models a nil response, e.g. a network failure before any HTTP exchange). -/
inductive RemoteOutcome where
  | ok : RemoteOutcome
  | errWith (msg : String) (resp : Option Nat) : RemoteOutcome
deriving DecidableEq, Repr

/-- Result of fetching the resource by key: found, not found, or another
fetch error (which `client.IgnoreNotFound` passes through). -/
inductive FetchResult where
  | found (sp : SentryProject) : FetchResult
  | notFound : FetchResult
  | errOther (msg : String) : FetchResult
deriving DecidableEq, Repr

/-- Observable side effects of one reconciliation pass, in program order.
`statusWrite` and `metaWrite` are local persistence calls; the `remote…`
events are calls to the Remote Resource Client. `remoteUpdate` belongs to the
client interface of the spec (section 6); no controller code path emits it —
it is needed only to state spec-level claims about update calls. -/
inductive Event where
  | statusWrite (state : SentryProjectCrStatus) (message : String) : Event
  | metaWrite (finalizers : List String) : Event
  | remoteCreate (organization team name slug platform : String) : Event
  | remoteUpdate (organization slug : String) : Event
  | remoteDelete (organization slug : String) : Event
deriving DecidableEq, Repr

/-- Embeds `UpdateStatus` (controller lines 133-140): set `Status.State` and
`Status.Message` on the object and persist via the status store. The write is
recorded as an event. -/
def UpdateStatus (sp : SentryProject) (state : SentryProjectCrStatus)
    (message : String) : SentryProject × Event :=
  ({ sp with status.state := state, status.message := message },
   Event.statusWrite state message)

/-- Embeds `UpdateFinalizer` (controller lines 143-151): if the finalizer is
not in the list, append it and persist; otherwise do nothing. -/
def UpdateFinalizer (sp : SentryProject) : SentryProject × List Event :=
  if !containsString sp.meta.finalizers SentryProjectFinalizer then
    let fs := sp.meta.finalizers ++ [SentryProjectFinalizer]
    ({ sp with meta.finalizers := fs }, [Event.metaWrite fs])
  else
    (sp, [])

/-- Embeds `RemoveFinalizer` (controller lines 154-162): if the finalizer is
in the list, remove it and persist; otherwise do nothing. -/
def RemoveFinalizer (sp : SentryProject) : SentryProject × List Event :=
  if containsString sp.meta.finalizers SentryProjectFinalizer then
    let fs := removeString sp.meta.finalizers SentryProjectFinalizer
    ({ sp with meta.finalizers := fs }, [Event.metaWrite fs])
  else
    (sp, [])

/-- Embeds `CreateSentryProject` (controller lines 114-118): build the params
`{Name, Slug, Platform}` and issue the create call against the organization
and team of the spec. In the model this produces the call event; the outcome
is supplied by the environment. -/
def CreateSentryProject (spec : SentryProjectSpec) : Event :=
  Event.remoteCreate spec.organization spec.team spec.name spec.slug spec.platform

/-- Embeds `DeleteSentryProject` (controller lines 120-131): an error whose
response carries status code 404 is swallowed (the project is already gone);
any other error is returned; success returns nil. -/
def DeleteSentryProject (out : RemoteOutcome) : Option String :=
  match out with
  | RemoteOutcome.ok => none
  | RemoteOutcome.errWith msg resp =>
      if resp = some 404 then none else some msg

/-- Embeds the error classification inside `Reconcile` (controller lines
69-80): map the response status code of a failed create call to a status
value; a nil response or any other code maps to `Failed`. -/
def classifyCreateError (resp : Option Nat) : SentryProjectCrStatus :=
  if resp = some 409 then Conflict
  else if resp = some 404 then NoTeam
  else if resp = some 403 then Forbiden
  else if resp = some 400 then BadRequest
  else Failed

/-- Embeds controller lines 59-64: if `Status.State` is the empty string, set
it to `Pending` and persist. -/
def initStep (sp : SentryProject) : SentryProject × List Event :=
  if sp.status.state = "" then
    let r := UpdateStatus sp Pending ""
    (r.1, [r.2])
  else
    (sp, [])

/-- Embeds controller lines 65-93 (the create branch): when `Status.State` is
`Pending` or `Failed`, issue the create call; on error, classify the response
code and persist the classified state with the error text; then — with no
guard on the call having succeeded — persist state `Created` with an empty
message. -/
def createStep (sp : SentryProject) (out : RemoteOutcome) :
    SentryProject × List Event :=
  if sp.status.state = Pending ∨ sp.status.state = Failed then
    let createEvt := CreateSentryProject sp.spec
    match out with
    | RemoteOutcome.ok =>
        let r := UpdateStatus sp Created ""
        (r.1, [createEvt, r.2])
    | RemoteOutcome.errWith msg resp =>
        let r1 := UpdateStatus sp (classifyCreateError resp) msg
        let r2 := UpdateStatus r1.1 Created ""
        (r2.1, [createEvt, r1.2, r2.2])
  else
    (sp, [])

/-- Result of one reconciliation pass: the error returned to the queueing
substrate (`none` is success), the final in-memory object (`none` when the
fetch did not yield an object), and the trace of side effects. -/
structure ReconcileOutput where
  err : Option String
  obj : Option SentryProject
  trace : List Event
deriving DecidableEq, Repr

/-- Embeds controller lines 94-110 (the finalizer / deletion branch): with a
zero deletion timestamp, ensure the finalizer is present; otherwise, unless
the state is already `Deleted`, issue the delete call — an error aborts the
pass — then persist state `Deleted`; finally remove the finalizer. -/
def finalizeStep (sp : SentryProject) (delOut : RemoteOutcome)
    (tr : List Event) : ReconcileOutput :=
  if sp.meta.deletionTimestampIsZero then
    let r := UpdateFinalizer sp
    ⟨none, some r.1, tr ++ r.2⟩
  else
    if sp.status.state = Deleted then
      let r := RemoveFinalizer sp
      ⟨none, some r.1, tr ++ r.2⟩
    else
      let delEvt := Event.remoteDelete sp.spec.organization sp.spec.slug
      match DeleteSentryProject delOut with
      | some msg => ⟨some msg, some sp, tr ++ [delEvt]⟩
      | none =>
          let r1 := UpdateStatus sp Deleted ""
          let r2 := RemoveFinalizer r1.1
          ⟨none, some r2.1, tr ++ [delEvt, r1.2] ++ r2.2⟩

/-- Embeds `Reconcile` (controller lines 50-112): fetch the resource — a
not-found fetch returns success with no action, another fetch error is
returned — then run the init, create and finalizer/deletion steps in program
order on the fetched object. -/
def Reconcile (fetch : FetchResult) (createOut delOut : RemoteOutcome) :
    ReconcileOutput :=
  match fetch with
  | FetchResult.notFound => ⟨none, none, []⟩
  | FetchResult.errOther msg => ⟨some msg, none, []⟩
  | FetchResult.found sp0 =>
      let r1 := initStep sp0
      let r2 := createStep r1.1 createOut
      finalizeStep r2.1 delOut (r1.2 ++ r2.2)

/-- Embeds `GetReadyCondition` (`sentryproject_types.go` lines 105-112):
return the first condition in the status whose type equals `Ready`. -/
def GetReadyCondition (sp : SentryProject) : Option Condition :=
  sp.status.conditions.find? (fun c => c.type == Ready)

/-- Embeds `IsProjectCreated` (`sentryproject_types.go` lines 114-117): a
Ready condition exists and the status slug is non-empty. -/
def IsProjectCreated (sp : SentryProject) : Bool :=
  (GetReadyCondition sp).isSome && sp.status.slug != ""

/-- Projection: the state of the final object of a pass (empty when the pass
had no object). -/
def objState (o : ReconcileOutput) : SentryProjectCrStatus :=
  match o.obj with
  | some sp => sp.status.state
  | none => ""

/-- Projection: the message of the final object of a pass. -/
def objMessage (o : ReconcileOutput) : String :=
  match o.obj with
  | some sp => sp.status.message
  | none => ""

/-- Projection: the status slug of the final object of a pass (the spec's
confirmedSlug). -/
def objSlug (o : ReconcileOutput) : String :=
  match o.obj with
  | some sp => sp.status.slug
  | none => ""

/-- Projection: the finalizer list of the final object of a pass. -/
def objFinalizers (o : ReconcileOutput) : List String :=
  match o.obj with
  | some sp => sp.meta.finalizers
  | none => []

/-- True for the events that are calls to the Remote Resource Client. -/
def isRemote : Event → Bool
  | Event.remoteCreate _ _ _ _ _ => true
  | Event.remoteUpdate _ _ => true
  | Event.remoteDelete _ _ => true
  | _ => false

/-- True for status-store writes. -/
def isStatusWrite : Event → Bool
  | Event.statusWrite _ _ => true
  | _ => false

/-- True for finalizer-list writes. -/
def isMetaWrite : Event → Bool
  | Event.metaWrite _ => true
  | _ => false

/-- True for remote create calls. -/
def isCreateCall : Event → Bool
  | Event.remoteCreate _ _ _ _ _ => true
  | _ => false

/-- True for remote update calls. -/
def isUpdateCall : Event → Bool
  | Event.remoteUpdate _ _ => true
  | _ => false

/-- Marker presence after an event: a finalizer-list write sets it to whether
the written list contains the marker, everything else leaves it unchanged. -/
def markerAfter (present : Bool) : Event → Bool
  | Event.metaWrite fs => containsString fs SentryProjectFinalizer
  | _ => present

/-- Scanning a trace with the given initial marker presence: true iff at
every remote call the finalizer marker is already persisted. -/
def markerBeforeRemotes (present : Bool) : List Event → Bool
  | [] => true
  | e :: rest =>
      (if isRemote e then present else true) &&
        markerBeforeRemotes (markerAfter present e) rest

/-- True iff no remote call occurs after a finalizer-list write in the
trace — every finalizer write happens only once the remote calls of the pass
are done. -/
def remotesPrecedeMetaWrites : List Event → Bool
  | [] => true
  | e :: rest =>
      (if isMetaWrite e then rest.all (fun x => !isRemote x) else true) &&
        remotesPrecedeMetaWrites rest

/-- True iff every remote call in the trace is followed, later in the same
trace, by a status-store write. -/
def everyRemoteFollowedByStatusWrite : List Event → Bool
  | [] => true
  | e :: rest =>
      (if isRemote e then rest.any isStatusWrite else true) &&
        everyRemoteFollowedByStatusWrite rest

/-- C6: a pass whose fetch reports not-found returns success with no remote
call, no status write and no finalizer change — the output is exactly success
with no object and an empty trace, for every environment outcome. -/
theorem C6_not_found_is_noop (c d : RemoteOutcome) :
    Reconcile FetchResult.notFound c d = ⟨none, none, []⟩ := rfl

/-- C10: IsProjectCreated returns true iff the status conditions list has a
condition of type Ready — with no constraint on that condition's status
value — and the status slug is non-empty. -/
theorem C10_is_project_created (sp : SentryProject) :
    IsProjectCreated sp = true ↔
      (∃ c ∈ sp.status.conditions, c.type = Ready) ∧ sp.status.slug ≠ "" := by
  simp [IsProjectCreated, GetReadyCondition, List.find?_isSome]

/-- Appending the marker makes it contained. -/
theorem containsString_append_self (l : List String) (s : String) :
    containsString (l ++ [s]) s = true := by
  simp [containsString]

/-- Removing the marker leaves a list not containing it. -/
theorem containsString_removeString (l : List String) (s : String) :
    containsString (removeString l s) s = false := by
  simp [containsString, removeString, List.mem_filter]

/-- UpdateFinalizer is a recorded no-op when the marker is already present. -/
theorem UpdateFinalizer_noop (sp : SentryProject)
    (h : containsString sp.meta.finalizers SentryProjectFinalizer = true) :
    UpdateFinalizer sp = (sp, []) := by
  simp [UpdateFinalizer, h]

/-- RemoveFinalizer is a recorded no-op when the marker is already absent. -/
theorem RemoveFinalizer_noop (sp : SentryProject)
    (h : containsString sp.meta.finalizers SentryProjectFinalizer = false) :
    RemoveFinalizer sp = (sp, []) := by
  simp [RemoveFinalizer, h]

/-- After UpdateFinalizer the marker is contained in the finalizer list. -/
theorem UpdateFinalizer_contains (sp : SentryProject) :
    containsString (UpdateFinalizer sp).1.meta.finalizers SentryProjectFinalizer = true := by
  by_cases h : containsString sp.meta.finalizers SentryProjectFinalizer = true
  · rw [UpdateFinalizer_noop sp h]
    exact h
  · have h' : containsString sp.meta.finalizers SentryProjectFinalizer = false :=
      Bool.eq_false_iff.mpr h
    simp [UpdateFinalizer, h', containsString_append_self]

/-- After RemoveFinalizer the marker is absent from the finalizer list. -/
theorem RemoveFinalizer_not_contains (sp : SentryProject) :
    containsString (RemoveFinalizer sp).1.meta.finalizers SentryProjectFinalizer = false := by
  by_cases h : containsString sp.meta.finalizers SentryProjectFinalizer = true
  · simp [RemoveFinalizer, h, containsString_removeString]
  · have h' : containsString sp.meta.finalizers SentryProjectFinalizer = false :=
      Bool.eq_false_iff.mpr h
    rw [RemoveFinalizer_noop sp h']
    exact h'

/-- C9: the finalizer operations are idempotent: ensuring presence when the
marker is already present is a no-op with no write, ensuring absence when it
is absent is a no-op with no write, and applying either operation twice
yields the same finalizer list as applying it once. -/
theorem C9_finalizer_idempotent (sp : SentryProject) :
    (containsString sp.meta.finalizers SentryProjectFinalizer = true →
      UpdateFinalizer sp = (sp, [])) ∧
    (containsString sp.meta.finalizers SentryProjectFinalizer = false →
      RemoveFinalizer sp = (sp, [])) ∧
    (UpdateFinalizer (UpdateFinalizer sp).1).1.meta.finalizers =
      (UpdateFinalizer sp).1.meta.finalizers ∧
    (RemoveFinalizer (RemoveFinalizer sp).1).1.meta.finalizers =
      (RemoveFinalizer sp).1.meta.finalizers := by
  refine ⟨fun h => UpdateFinalizer_noop sp h, fun h => RemoveFinalizer_noop sp h, ?_, ?_⟩
  · rw [UpdateFinalizer_noop _ (UpdateFinalizer_contains sp)]
  · rw [RemoveFinalizer_noop _ (RemoveFinalizer_not_contains sp)]

/-- UpdateStatus leaves the metadata unchanged. -/
theorem UpdateStatus_meta (sp : SentryProject) (st m : String) :
    (UpdateStatus sp st m).1.meta = sp.meta := rfl

/-- UpdateStatus leaves the spec unchanged. -/
theorem UpdateStatus_spec (sp : SentryProject) (st m : String) :
    (UpdateStatus sp st m).1.spec = sp.spec := rfl

/-- UpdateStatus writes the state. -/
theorem UpdateStatus_state (sp : SentryProject) (st m : String) :
    (UpdateStatus sp st m).1.status.state = st := rfl

/-- UpdateStatus leaves the status slug unchanged. -/
theorem UpdateStatus_slug (sp : SentryProject) (st m : String) :
    (UpdateStatus sp st m).1.status.slug = sp.status.slug := rfl

/-- RemoveFinalizer leaves the status unchanged. -/
theorem RemoveFinalizer_status (sp : SentryProject) :
    (RemoveFinalizer sp).1.status = sp.status := by
  by_cases h : containsString sp.meta.finalizers SentryProjectFinalizer <;>
    simp [RemoveFinalizer, h]

/-- UpdateFinalizer leaves the status unchanged. -/
theorem UpdateFinalizer_status (sp : SentryProject) :
    (UpdateFinalizer sp).1.status = sp.status := by
  by_cases h : containsString sp.meta.finalizers SentryProjectFinalizer <;>
    simp [UpdateFinalizer, h]

/-- The init step leaves the metadata unchanged. -/
theorem initStep_meta (sp : SentryProject) : (initStep sp).1.meta = sp.meta := by
  by_cases h : sp.status.state = "" <;> simp [initStep, UpdateStatus, h]

/-- The init step leaves the spec unchanged. -/
theorem initStep_spec (sp : SentryProject) : (initStep sp).1.spec = sp.spec := by
  by_cases h : sp.status.state = "" <;> simp [initStep, UpdateStatus, h]

/-- The init step leaves the status slug unchanged. -/
theorem initStep_slug (sp : SentryProject) :
    (initStep sp).1.status.slug = sp.status.slug := by
  by_cases h : sp.status.state = "" <;> simp [initStep, UpdateStatus, h]

/-- State after the init step: an empty state becomes Pending, any other
state is unchanged. -/
theorem initStep_state (sp : SentryProject) :
    (initStep sp).1.status.state =
      if sp.status.state = "" then Pending else sp.status.state := by
  by_cases h : sp.status.state = "" <;> simp [initStep, UpdateStatus, h]

/-- Trace of the init step. -/
theorem initStep_trace (sp : SentryProject) :
    (initStep sp).2 =
      if sp.status.state = "" then [Event.statusWrite Pending ""] else [] := by
  by_cases h : sp.status.state = "" <;> simp [initStep, UpdateStatus, h]

/-- The create step leaves the metadata unchanged. -/
theorem createStep_meta (sp : SentryProject) (c : RemoteOutcome) :
    (createStep sp c).1.meta = sp.meta := by
  by_cases h : sp.status.state = Pending ∨ sp.status.state = Failed
  · cases c <;> simp [createStep, UpdateStatus, h]
  · simp [createStep, h]

/-- The create step leaves the spec unchanged. -/
theorem createStep_spec (sp : SentryProject) (c : RemoteOutcome) :
    (createStep sp c).1.spec = sp.spec := by
  by_cases h : sp.status.state = Pending ∨ sp.status.state = Failed
  · cases c <;> simp [createStep, UpdateStatus, h]
  · simp [createStep, h]

/-- The create step leaves the status slug unchanged. -/
theorem createStep_slug (sp : SentryProject) (c : RemoteOutcome) :
    (createStep sp c).1.status.slug = sp.status.slug := by
  by_cases h : sp.status.state = Pending ∨ sp.status.state = Failed
  · cases c <;> simp [createStep, UpdateStatus, h]
  · simp [createStep, h]

/-- State after the create step: from Pending or Failed it is Created — with
no regard to the outcome of the create call, because the controller persists
Created unconditionally after the error classification — otherwise it is
unchanged. -/
theorem createStep_state (sp : SentryProject) (c : RemoteOutcome) :
    (createStep sp c).1.status.state =
      if sp.status.state = Pending ∨ sp.status.state = Failed then Created
      else sp.status.state := by
  by_cases h : sp.status.state = Pending ∨ sp.status.state = Failed
  · cases c <;> simp [createStep, UpdateStatus, h]
  · simp [createStep, h]

/-- Message after the create step: from Pending or Failed it is the empty
string written by the unconditional final status update, otherwise it is
unchanged. -/
theorem createStep_message (sp : SentryProject) (c : RemoteOutcome) :
    (createStep sp c).1.status.message =
      if sp.status.state = Pending ∨ sp.status.state = Failed then ""
      else sp.status.message := by
  by_cases h : sp.status.state = Pending ∨ sp.status.state = Failed
  · cases c <;> simp [createStep, UpdateStatus, h]
  · simp [createStep, h]

/-- Trace of the create step. -/
theorem createStep_trace (sp : SentryProject) (c : RemoteOutcome) :
    (createStep sp c).2 =
      if sp.status.state = Pending ∨ sp.status.state = Failed then
        match c with
        | RemoteOutcome.ok =>
            [CreateSentryProject sp.spec, Event.statusWrite Created ""]
        | RemoteOutcome.errWith msg resp =>
            [CreateSentryProject sp.spec,
             Event.statusWrite (classifyCreateError resp) msg,
             Event.statusWrite Created ""]
      else [] := by
  by_cases h : sp.status.state = Pending ∨ sp.status.state = Failed
  · cases c <;> simp [createStep, UpdateStatus, h]
  · simp [createStep, h]

/-- Unfolding of Reconcile on a found resource into its three steps. -/
theorem Reconcile_found (sp : SentryProject) (c d : RemoteOutcome) :
    Reconcile (FetchResult.found sp) c d =
      finalizeStep (createStep (initStep sp).1 c).1 d
        ((initStep sp).2 ++ (createStep (initStep sp).1 c).2) := rfl

/-- If the fetched state is not Deleted, it is still not Deleted when the
finalizer/deletion branch is reached (the init and create steps only ever
write Pending or Created). -/
theorem stepsState_ne_deleted (sp : SentryProject) (c : RemoteOutcome)
    (hs : ¬ sp.status.state = Deleted) :
    ¬ (createStep (initStep sp).1 c).1.status.state = Deleted := by
  rw [createStep_state, initStep_state]
  split_ifs with h1 h2 h3 <;> first | decide | exact hs

/-- C5: in a pass with deletion requested and state not yet Deleted, a delete
call returning 404 or succeeding is treated as success — the pass returns no
error, the final state is Deleted and the finalizer marker is absent; a
delete call failing with any other error is surfaced as the pass's error and
the finalizer list is left unchanged. -/
theorem C5_delete_path (sp : SentryProject) (c d : RemoteOutcome)
    (hz : sp.meta.deletionTimestampIsZero = false)
    (hs : ¬ sp.status.state = Deleted) :
    ((d = RemoteOutcome.ok ∨ (∃ m, d = RemoteOutcome.errWith m (some 404))) →
      (Reconcile (FetchResult.found sp) c d).err = none ∧
      objState (Reconcile (FetchResult.found sp) c d) = Deleted ∧
      containsString (objFinalizers (Reconcile (FetchResult.found sp) c d))
        SentryProjectFinalizer = false) ∧
    (∀ m resp, d = RemoteOutcome.errWith m resp → ¬ resp = some 404 →
      (Reconcile (FetchResult.found sp) c d).err = some m ∧
      objFinalizers (Reconcile (FetchResult.found sp) c d) = sp.meta.finalizers) := by
  have hmeta : (createStep (initStep sp).1 c).1.meta = sp.meta := by
    rw [createStep_meta, initStep_meta]
  have hz2 : (createStep (initStep sp).1 c).1.meta.deletionTimestampIsZero = false := by
    rw [hmeta]; exact hz
  have hs2 := stepsState_ne_deleted sp c hs
  constructor
  · rintro (rfl | ⟨m, rfl⟩)
    · rw [Reconcile_found]
      simp [finalizeStep, hz2, hs2, DeleteSentryProject, objState, objFinalizers,
        RemoveFinalizer_status, UpdateStatus_state, RemoveFinalizer_not_contains]
    · rw [Reconcile_found]
      simp [finalizeStep, hz2, hs2, DeleteSentryProject, objState, objFinalizers,
        RemoveFinalizer_status, UpdateStatus_state, RemoveFinalizer_not_contains]
  · rintro m resp rfl hne
    rw [Reconcile_found]
    simp [finalizeStep, hz, hz2, hs2, DeleteSentryProject, hne, objState, objFinalizers, hmeta]

/-- Concrete resource for the C5 witness: deletion requested, state Created,
finalizer present. -/
def spC5 : SentryProject :=
  { meta := ⟨["sentry.io.x42r/finalizer"], false⟩,
    spec := ⟨"proj", "my-proj", "core", "go", "acme", "Update"⟩,
    status := ⟨"Created", "", [], ""⟩ }

/-- Witness for C5 at a concrete input: delete returns 404 and the pass ends
with state Deleted, no error and the finalizer removed. -/
theorem C5_delete_path_witness :
    (Reconcile (FetchResult.found spC5) RemoteOutcome.ok
      (RemoteOutcome.errWith "missing" (some 404))).err = none ∧
    objState (Reconcile (FetchResult.found spC5) RemoteOutcome.ok
      (RemoteOutcome.errWith "missing" (some 404))) = Deleted ∧
    containsString (objFinalizers (Reconcile (FetchResult.found spC5) RemoteOutcome.ok
      (RemoteOutcome.errWith "missing" (some 404)))) SentryProjectFinalizer = false :=
  (C5_delete_path spC5 RemoteOutcome.ok (RemoteOutcome.errWith "missing" (some 404))
      (by decide) (by decide)).1 (Or.inr ⟨"missing", rfl⟩)

/-- The init-step trace has no finalizer writes. -/
theorem initStep_trace_no_meta (sp : SentryProject) :
    (initStep sp).2.all (fun e => !isMetaWrite e) = true := by
  rw [initStep_trace]; split_ifs <;> simp [isMetaWrite]

/-- The create-step trace has no finalizer writes. -/
theorem createStep_trace_no_meta (sp : SentryProject) (c : RemoteOutcome) :
    (createStep sp c).2.all (fun e => !isMetaWrite e) = true := by
  rw [createStep_trace]
  split_ifs
  · cases c <;> simp [isMetaWrite, CreateSentryProject]
  · simp

/-- The UpdateFinalizer trace has no remote calls. -/
theorem UpdateFinalizer_trace_no_remote (sp : SentryProject) :
    (UpdateFinalizer sp).2.all (fun e => !isRemote e) = true := by
  by_cases h : containsString sp.meta.finalizers SentryProjectFinalizer <;>
    simp [UpdateFinalizer, h, isRemote]

/-- The UpdateFinalizer trace on its own has every remote call before every
finalizer write (it has no remote calls). -/
theorem UpdateFinalizer_trace_rpm (sp : SentryProject) :
    remotesPrecedeMetaWrites (UpdateFinalizer sp).2 = true := by
  by_cases h : containsString sp.meta.finalizers SentryProjectFinalizer <;>
    simp [UpdateFinalizer, h, remotesPrecedeMetaWrites, isMetaWrite]

/-- Prepending a trace without finalizer writes preserves the
remotes-precede-finalizer-writes property of the suffix. -/
theorem remotesPrecedeMetaWrites_append (tr : List Event)
    (h : tr.all (fun e => !isMetaWrite e) = true) (tl : List Event)
    (htl : remotesPrecedeMetaWrites tl = true) :
    remotesPrecedeMetaWrites (tr ++ tl) = true := by
  induction tr with
  | nil => simpa using htl
  | cons e rest ih =>
      simp only [List.all_cons, Bool.and_eq_true, Bool.not_eq_true'] at h
      simp only [List.cons_append, remotesPrecedeMetaWrites, h.1, Bool.and_eq_true]
      exact ⟨by simp, ih h.2⟩

/-- Unfolding of the finalizer/deletion branch when deletion is not
requested: ensure the finalizer and succeed. -/
theorem finalizeStep_keep (sp : SentryProject) (d : RemoteOutcome) (tr : List Event)
    (hz : sp.meta.deletionTimestampIsZero = true) :
    finalizeStep sp d tr = ⟨none, some (UpdateFinalizer sp).1, tr ++ (UpdateFinalizer sp).2⟩ := by
  simp [finalizeStep, hz]

/-- Statement of claim C1 as written: in every pass on a fetched resource,
whenever a remote call is issued the finalizer marker is already persisted —
present initially or written by an earlier finalizer write of the pass. -/
def claimC1 : Prop :=
  ∀ (sp : SentryProject) (c d : RemoteOutcome),
    markerBeforeRemotes (containsString sp.meta.finalizers SentryProjectFinalizer)
      (Reconcile (FetchResult.found sp) c d).trace = true

/-- Concrete first-pass resource for C1: empty status, no finalizers, no
deletion requested. -/
def spC1 : SentryProject :=
  { meta := ⟨[], true⟩,
    spec := ⟨"proj", "my-proj", "core", "go", "acme", "Update"⟩,
    status := ⟨"", "", [], ""⟩ }

/-- C1 counterexample: on the first pass of a fresh resource the create call
is issued while the finalizer marker has never been persisted — the marker is
added only after the remote call, so the claimed ordering is false. -/
theorem C1_counterexample : ¬ claimC1 := by
  intro h
  exact absurd (h spC1 RemoteOutcome.ok RemoteOutcome.ok) (by decide)

/-- C1 amended: in a pass without deletion intent the pass succeeds, the
finalizer marker is present at the end of the pass, and every finalizer write
of the pass happens only after all remote calls of the pass — the controller
adds the finalizer after the create call, not before it. -/
theorem C1_amended (sp : SentryProject) (c d : RemoteOutcome)
    (hz : sp.meta.deletionTimestampIsZero = true) :
    (Reconcile (FetchResult.found sp) c d).err = none ∧
    containsString (objFinalizers (Reconcile (FetchResult.found sp) c d))
      SentryProjectFinalizer = true ∧
    remotesPrecedeMetaWrites (Reconcile (FetchResult.found sp) c d).trace = true := by
  have hmeta : (createStep (initStep sp).1 c).1.meta = sp.meta := by
    rw [createStep_meta, initStep_meta]
  have hz2 : (createStep (initStep sp).1 c).1.meta.deletionTimestampIsZero = true := by
    rw [hmeta]; exact hz
  rw [Reconcile_found, finalizeStep_keep _ _ _ hz2]
  refine ⟨rfl, ?_, ?_⟩
  · exact UpdateFinalizer_contains _
  · exact remotesPrecedeMetaWrites_append _
      (by simp [List.all_append, initStep_trace_no_meta, createStep_trace_no_meta]) _
      (UpdateFinalizer_trace_rpm _)

/-- Witness for the amended C1 at the concrete first-pass resource. -/
theorem C1_amended_witness :
    (Reconcile (FetchResult.found spC1) RemoteOutcome.ok RemoteOutcome.ok).err = none ∧
    containsString (objFinalizers (Reconcile (FetchResult.found spC1) RemoteOutcome.ok RemoteOutcome.ok))
      SentryProjectFinalizer = true ∧
    remotesPrecedeMetaWrites
      (Reconcile (FetchResult.found spC1) RemoteOutcome.ok RemoteOutcome.ok).trace = true :=
  C1_amended spC1 RemoteOutcome.ok RemoteOutcome.ok rfl

/-- Unfolding of the finalizer/deletion branch when deletion is requested
but the state is already Deleted: only remove the finalizer. -/
theorem finalizeStep_alreadyDeleted (sp : SentryProject) (d : RemoteOutcome) (tr : List Event)
    (hz : sp.meta.deletionTimestampIsZero = false) (hs : sp.status.state = Deleted) :
    finalizeStep sp d tr = ⟨none, some (RemoveFinalizer sp).1, tr ++ (RemoveFinalizer sp).2⟩ := by
  simp [finalizeStep, hz, hs]

/-- Unfolding of the finalizer/deletion branch when the delete call is
treated as success: persist Deleted, then remove the finalizer. -/
theorem finalizeStep_delete_ok (sp : SentryProject) (d : RemoteOutcome) (tr : List Event)
    (hz : sp.meta.deletionTimestampIsZero = false) (hs : ¬ sp.status.state = Deleted)
    (hdel : DeleteSentryProject d = none) :
    finalizeStep sp d tr =
      ⟨none, some (RemoveFinalizer (UpdateStatus sp Deleted "").1).1,
       tr ++ [Event.remoteDelete sp.spec.organization sp.spec.slug, Event.statusWrite Deleted ""]
          ++ (RemoveFinalizer (UpdateStatus sp Deleted "").1).2⟩ := by
  simp [finalizeStep, hz, hs, hdel, UpdateStatus]

/-- Unfolding of the finalizer/deletion branch when the delete call fails
with an error that is not swallowed: the pass aborts with that error and
nothing after the delete call happens. -/
theorem finalizeStep_delete_err (sp : SentryProject) (d : RemoteOutcome) (tr : List Event) (m : String)
    (hz : sp.meta.deletionTimestampIsZero = false) (hs : ¬ sp.status.state = Deleted)
    (hdel : DeleteSentryProject d = some m) :
    finalizeStep sp d tr =
      ⟨some m, some sp, tr ++ [Event.remoteDelete sp.spec.organization sp.spec.slug]⟩ := by
  simp [finalizeStep, hz, hs, hdel]

/-- The status-store writes of a trace, in order. -/
def statusWritesOf (tr : List Event) : List Event := tr.filter isStatusWrite

/-- Status writes of a concatenation. -/
theorem statusWritesOf_append (t1 t2 : List Event) :
    statusWritesOf (t1 ++ t2) = statusWritesOf t1 ++ statusWritesOf t2 :=
  List.filter_append t1 t2

/-- Status writes of the init step. -/
theorem statusWritesOf_initStep (sp : SentryProject) :
    statusWritesOf (initStep sp).2 =
      if sp.status.state = "" then [Event.statusWrite Pending ""] else [] := by
  rw [initStep_trace]; split_ifs <;> simp [statusWritesOf, isStatusWrite]

/-- UpdateFinalizer performs no status write. -/
theorem statusWritesOf_UpdateFinalizer (sp : SentryProject) :
    statusWritesOf (UpdateFinalizer sp).2 = [] := by
  by_cases h : containsString sp.meta.finalizers SentryProjectFinalizer <;>
    simp [UpdateFinalizer, h, statusWritesOf, isStatusWrite]

/-- Status writes of the create step on a failed create call from a Pending
or Failed state: the classified failure with the error text, immediately
followed by the unconditional Created write. -/
theorem statusWritesOf_createStep_err (sp : SentryProject) (m : String) (resp : Option Nat)
    (hPF : sp.status.state = Pending ∨ sp.status.state = Failed) :
    statusWritesOf (createStep sp (RemoteOutcome.errWith m resp)).2 =
      [Event.statusWrite (classifyCreateError resp) m, Event.statusWrite Created ""] := by
  rw [createStep_trace]
  simp [hPF, statusWritesOf, isStatusWrite, CreateSentryProject]

/-- From an empty, Pending or Failed state, the state after the init step is
Pending or Failed — the create branch will run. -/
theorem initStep_pf (sp : SentryProject)
    (h : sp.status.state = "" ∨ sp.status.state = Pending ∨ sp.status.state = Failed) :
    (initStep sp).1.status.state = Pending ∨ (initStep sp).1.status.state = Failed := by
  rw [initStep_state]
  rcases h with h | h | h <;> rw [h] <;> simp [Pending, Failed]

/-- Concrete resource for C2: state Pending, no finalizers, no deletion
requested. -/
def spC2 : SentryProject :=
  { meta := ⟨[], true⟩,
    spec := ⟨"proj", "my-proj", "core", "go", "acme", "Update"⟩,
    status := ⟨"Pending", "", [], ""⟩ }

/-- C2: evaluation at the failing input. The create call returns 403 and the
controller persists state Forbiden with the error text but then immediately
overwrites it with Created and an empty message, so the pass ends in phase
Created, not Forbidden; a second pass on the resulting object issues no
create call, so the create is not retried. This contradicts both the claim
and the controller's own error-classification code, which the unconditional
Created write makes dead. -/
theorem C2_code_bug :
    (Reconcile (FetchResult.found spC2)
        (RemoteOutcome.errWith "403 Forbidden" (some 403)) RemoteOutcome.ok).trace =
      [Event.remoteCreate "acme" "core" "proj" "my-proj" "go",
       Event.statusWrite Forbiden "403 Forbidden",
       Event.statusWrite Created "",
       Event.metaWrite [SentryProjectFinalizer]] ∧
    objState (Reconcile (FetchResult.found spC2)
        (RemoteOutcome.errWith "403 Forbidden" (some 403)) RemoteOutcome.ok) = Created ∧
    objMessage (Reconcile (FetchResult.found spC2)
        (RemoteOutcome.errWith "403 Forbidden" (some 403)) RemoteOutcome.ok) = "" ∧
    ((Reconcile
        (FetchResult.found
          ((Reconcile (FetchResult.found spC2)
              (RemoteOutcome.errWith "403 Forbidden" (some 403)) RemoteOutcome.ok).obj.getD spC2))
        (RemoteOutcome.errWith "403 Forbidden" (some 403)) RemoteOutcome.ok).trace.all
      (fun e => !isCreateCall e)) = true := by
  decide

/-- Statement of claim C3 as written: on a pass whose create call returns
409, the outcome is resolved per spec.conflictPolicy — Ignore gives phase
Created with no update call, Update issues an update call, Fail gives phase
Failed. -/
def claimC3 : Prop :=
  ∀ (sp : SentryProject) (m : String) (d : RemoteOutcome),
    (sp.status.state = "" ∨ sp.status.state = Pending ∨ sp.status.state = Failed) →
    (sp.spec.conflictPolicy = Ignore →
      objState (Reconcile (FetchResult.found sp) (RemoteOutcome.errWith m (some 409)) d) = Created ∧
      ((Reconcile (FetchResult.found sp) (RemoteOutcome.errWith m (some 409)) d).trace.all
        (fun e => !isUpdateCall e)) = true) ∧
    (sp.spec.conflictPolicy = Update →
      ((Reconcile (FetchResult.found sp) (RemoteOutcome.errWith m (some 409)) d).trace.any
        isUpdateCall) = true) ∧
    (sp.spec.conflictPolicy = Fail →
      objState (Reconcile (FetchResult.found sp) (RemoteOutcome.errWith m (some 409)) d) = Failed)

/-- Concrete resource for the C3 counterexample: conflictPolicy Fail, state
Pending. -/
def spC3 : SentryProject :=
  { meta := ⟨[], true⟩,
    spec := ⟨"proj", "my-proj", "core", "go", "acme", "Fail"⟩,
    status := ⟨"Pending", "", [], ""⟩ }

/-- C3 counterexample: with conflictPolicy Fail and a 409 create response
the pass ends in phase Created, not Failed — the controller never consults
the conflict policy. -/
theorem C3_counterexample : ¬ claimC3 := by
  intro h
  have h2 := (h spC3 "conflict" RemoteOutcome.ok (Or.inr (Or.inl rfl))).2.2 rfl
  exact absurd h2 (by decide)

/-- C3 amended: a 409 create response is handled identically for every
conflictPolicy value: the status is set to Conflict with the error text and
then unconditionally overwritten with Created, and no update call is issued
(the controller defines none; policy handling is an unimplemented TODO). -/
theorem C3_amended (sp : SentryProject) (m : String) (d : RemoteOutcome)
    (h : sp.status.state = "" ∨ sp.status.state = Pending ∨ sp.status.state = Failed)
    (hz : sp.meta.deletionTimestampIsZero = true) :
    objState (Reconcile (FetchResult.found sp) (RemoteOutcome.errWith m (some 409)) d) = Created ∧
    statusWritesOf (Reconcile (FetchResult.found sp) (RemoteOutcome.errWith m (some 409)) d).trace =
      (if sp.status.state = "" then [Event.statusWrite Pending ""] else []) ++
        [Event.statusWrite Conflict m, Event.statusWrite Created ""] ∧
    ((Reconcile (FetchResult.found sp) (RemoteOutcome.errWith m (some 409)) d).trace.all
      (fun e => !isUpdateCall e)) = true := by
  have hPF := initStep_pf sp h
  have hmeta : (createStep (initStep sp).1 (RemoteOutcome.errWith m (some 409))).1.meta = sp.meta := by
    rw [createStep_meta, initStep_meta]
  have hz2 : (createStep (initStep sp).1 (RemoteOutcome.errWith m (some 409))).1.meta.deletionTimestampIsZero = true := by
    rw [hmeta]; exact hz
  rw [Reconcile_found, finalizeStep_keep _ _ _ hz2]
  refine ⟨?_, ?_, ?_⟩
  · show (UpdateFinalizer _).1.status.state = Created
    rw [UpdateFinalizer_status, createStep_state]
    simp [hPF]
  · rw [statusWritesOf_append, statusWritesOf_append, statusWritesOf_UpdateFinalizer,
      statusWritesOf_initStep, statusWritesOf_createStep_err _ _ _ hPF]
    have hclass : classifyCreateError (some 409) = Conflict := rfl
    rw [hclass]
    simp
  · rw [List.all_append, List.all_append]
    refine ?_
    have h1 : (initStep sp).2.all (fun e => !isUpdateCall e) = true := by
      rw [initStep_trace]; split_ifs <;> simp [isUpdateCall]
    have h2 : ((createStep (initStep sp).1 (RemoteOutcome.errWith m (some 409))).2.all
        (fun e => !isUpdateCall e)) = true := by
      rw [createStep_trace]; simp [hPF, isUpdateCall, CreateSentryProject]
    have h3 : ((UpdateFinalizer (createStep (initStep sp).1 (RemoteOutcome.errWith m (some 409))).1).2.all
        (fun e => !isUpdateCall e)) = true := by
      by_cases hc : containsString (createStep (initStep sp).1 (RemoteOutcome.errWith m (some 409))).1.meta.finalizers SentryProjectFinalizer <;>
        simp [UpdateFinalizer, hc, isUpdateCall]
    simp [h1, h2, h3]

/-- Concrete resource for the C3 witness: conflictPolicy Ignore, state
Pending. -/
def spC3w : SentryProject :=
  { meta := ⟨[], true⟩,
    spec := ⟨"proj", "my-proj", "core", "go", "acme", "Ignore"⟩,
    status := ⟨"Pending", "", [], ""⟩ }

/-- Witness for the amended C3 at a concrete input. -/
theorem C3_amended_witness :
    objState (Reconcile (FetchResult.found spC3w)
      (RemoteOutcome.errWith "conflict" (some 409)) RemoteOutcome.ok) = Created ∧
    statusWritesOf (Reconcile (FetchResult.found spC3w)
        (RemoteOutcome.errWith "conflict" (some 409)) RemoteOutcome.ok).trace =
      (if spC3w.status.state = "" then [Event.statusWrite Pending ""] else []) ++
        [Event.statusWrite Conflict "conflict", Event.statusWrite Created ""] ∧
    ((Reconcile (FetchResult.found spC3w)
        (RemoteOutcome.errWith "conflict" (some 409)) RemoteOutcome.ok).trace.all
      (fun e => !isUpdateCall e)) = true :=
  C3_amended spC3w "conflict" RemoteOutcome.ok (Or.inr (Or.inl rfl)) rfl

/-- UpdateFinalizer leaves the spec unchanged. -/
theorem UpdateFinalizer_spec (sp : SentryProject) :
    (UpdateFinalizer sp).1.spec = sp.spec := by
  by_cases h : containsString sp.meta.finalizers SentryProjectFinalizer <;>
    simp [UpdateFinalizer, h]

/-- UpdateFinalizer leaves the deletion-timestamp flag unchanged. -/
theorem UpdateFinalizer_tsz (sp : SentryProject) :
    (UpdateFinalizer sp).1.meta.deletionTimestampIsZero = sp.meta.deletionTimestampIsZero := by
  by_cases h : containsString sp.meta.finalizers SentryProjectFinalizer <;>
    simp [UpdateFinalizer, h]

/-- Statement of claim C4 as written: a first pass from an empty status
whose create call succeeds ends with phase Created, the status slug (the
spec's confirmedSlug) equal to spec.slug, and the finalizer present. -/
def claimC4 : Prop :=
  ∀ (sp : SentryProject) (d : RemoteOutcome),
    sp.status = ⟨"", "", [], ""⟩ →
    sp.meta.deletionTimestampIsZero = true →
    objState (Reconcile (FetchResult.found sp) RemoteOutcome.ok d) = Created ∧
    objSlug (Reconcile (FetchResult.found sp) RemoteOutcome.ok d) = sp.spec.slug ∧
    containsString (objFinalizers (Reconcile (FetchResult.found sp) RemoteOutcome.ok d))
      SentryProjectFinalizer = true

/-- Concrete first-pass resource for C4: empty status, spec slug my-proj. -/
def spC4 : SentryProject :=
  { meta := ⟨[], true⟩,
    spec := ⟨"proj", "my-proj", "core", "go", "acme", "Update"⟩,
    status := ⟨"", "", [], ""⟩ }

/-- C4 counterexample: on the concrete first pass with a successful create
the status slug stays empty — it never becomes spec.slug, because no
controller code path writes the status slug. -/
theorem C4_counterexample : ¬ claimC4 := by
  intro h
  exact absurd (h spC4 RemoteOutcome.ok rfl rfl).2.1 (by decide)

/-- C4 amended: a first pass from an empty status with a successful create
ends with phase Created and empty message and the finalizer present, but the
status slug is left unchanged — the controller records no confirmed slug. -/
theorem C4_amended (sp : SentryProject) (d : RemoteOutcome)
    (hst : sp.status.state = "") (hz : sp.meta.deletionTimestampIsZero = true) :
    objState (Reconcile (FetchResult.found sp) RemoteOutcome.ok d) = Created ∧
    objMessage (Reconcile (FetchResult.found sp) RemoteOutcome.ok d) = "" ∧
    containsString (objFinalizers (Reconcile (FetchResult.found sp) RemoteOutcome.ok d))
      SentryProjectFinalizer = true ∧
    objSlug (Reconcile (FetchResult.found sp) RemoteOutcome.ok d) = sp.status.slug := by
  have hPF : (initStep sp).1.status.state = Pending ∨ (initStep sp).1.status.state = Failed :=
    initStep_pf sp (Or.inl hst)
  have hmeta : (createStep (initStep sp).1 RemoteOutcome.ok).1.meta = sp.meta := by
    rw [createStep_meta, initStep_meta]
  have hz2 : (createStep (initStep sp).1 RemoteOutcome.ok).1.meta.deletionTimestampIsZero = true := by
    rw [hmeta]; exact hz
  rw [Reconcile_found, finalizeStep_keep _ _ _ hz2]
  refine ⟨?_, ?_, UpdateFinalizer_contains _, ?_⟩
  · show (UpdateFinalizer _).1.status.state = Created
    rw [UpdateFinalizer_status, createStep_state]
    simp [hPF]
  · show (UpdateFinalizer _).1.status.message = ""
    rw [UpdateFinalizer_status, createStep_message]
    simp [hPF]
  · show (UpdateFinalizer _).1.status.slug = sp.status.slug
    rw [UpdateFinalizer_status, createStep_slug, initStep_slug]

/-- Witness for the amended C4 at the concrete first-pass resource. -/
theorem C4_amended_witness :
    objState (Reconcile (FetchResult.found spC4) RemoteOutcome.ok RemoteOutcome.ok) = Created ∧
    objMessage (Reconcile (FetchResult.found spC4) RemoteOutcome.ok RemoteOutcome.ok) = "" ∧
    containsString (objFinalizers (Reconcile (FetchResult.found spC4) RemoteOutcome.ok RemoteOutcome.ok))
      SentryProjectFinalizer = true ∧
    objSlug (Reconcile (FetchResult.found spC4) RemoteOutcome.ok RemoteOutcome.ok) = spC4.status.slug :=
  C4_amended spC4 RemoteOutcome.ok rfl rfl

/-- The object a pass leaves behind (unchanged when the pass had none). -/
def passOnce (c d : RemoteOutcome) (sp : SentryProject) : SentryProject :=
  match (Reconcile (FetchResult.found sp) c d).obj with
  | some sp1 => sp1
  | none => sp

/-- Iterated reconciliation passes with a fixed environment. -/
def passIter (c d : RemoteOutcome) : Nat → SentryProject → SentryProject
  | 0, sp => sp
  | Nat.succ n, sp => passIter c d n (passOnce c d sp)

/-- Statement of claim C7 as written: a pass on a resource already in phase
Created with no deletion requested issues no create call, does issue an
update call (the update-only re-apply path), and leaves the status slug
unchanged. -/
def claimC7 : Prop :=
  ∀ (sp : SentryProject) (c d : RemoteOutcome),
    sp.status.state = Created →
    sp.meta.deletionTimestampIsZero = true →
    ((Reconcile (FetchResult.found sp) c d).trace.all (fun e => !isCreateCall e)) = true ∧
    ((Reconcile (FetchResult.found sp) c d).trace.any isUpdateCall) = true ∧
    objSlug (Reconcile (FetchResult.found sp) c d) = sp.status.slug

/-- Concrete resource for C7: phase Created, finalizer present, no deletion
requested. -/
def spC7 : SentryProject :=
  { meta := ⟨["sentry.io.x42r/finalizer"], true⟩,
    spec := ⟨"proj", "my-proj", "core", "go", "acme", "Update"⟩,
    status := ⟨"Created", "", [], "my-proj"⟩ }

/-- C7 counterexample: a pass on a Created resource issues no update call at
all — its trace has no remote call of any kind, so the claimed update-only
re-apply path does not exist. -/
theorem C7_counterexample : ¬ claimC7 := by
  intro h
  exact absurd (h spC7 RemoteOutcome.ok RemoteOutcome.ok rfl rfl).2.1 (by decide)

/-- One pass on a Created resource without deletion intent: the status is
unchanged, the spec is unchanged, deletion intent is unchanged, the trace
has no remote calls and the pass succeeds. -/
theorem pass_created_invariant (sp : SentryProject) (c d : RemoteOutcome)
    (hst : sp.status.state = Created) (hz : sp.meta.deletionTimestampIsZero = true) :
    (passOnce c d sp).status = sp.status ∧
    (passOnce c d sp).spec = sp.spec ∧
    (passOnce c d sp).meta.deletionTimestampIsZero = true ∧
    ((Reconcile (FetchResult.found sp) c d).trace.all (fun e => !isRemote e)) = true ∧
    (Reconcile (FetchResult.found sp) c d).err = none := by
  have h1 : initStep sp = (sp, []) := by
    simp [initStep, hst, Created]
  have h2 : createStep sp c = (sp, []) := by
    simp [createStep, hst, Created, Pending, Failed]
  have hrec : Reconcile (FetchResult.found sp) c d =
      ⟨none, some (UpdateFinalizer sp).1, [] ++ (UpdateFinalizer sp).2⟩ := by
    rw [Reconcile_found, h1]
    simp only []
    rw [h2]
    exact finalizeStep_keep sp d ([] ++ []) hz
  refine ⟨?_, ?_, ?_, ?_, ?_⟩
  · show (passOnce c d sp).status = sp.status
    simp [passOnce, hrec, UpdateFinalizer_status]
  · simp [passOnce, hrec, UpdateFinalizer_spec]
  · simp [passOnce, hrec, UpdateFinalizer_tsz, hz]
  · simp [hrec, UpdateFinalizer_trace_no_remote]
  · simp [hrec]

/-- C7 amended: repeatedly reconciling a resource in phase Created with no
deletion requested never changes the status (so never the slug) and issues
no remote calls at all — no create call, but no update call either; each
pass succeeds and only ensures the finalizer. -/
theorem C7_amended (sp : SentryProject) (c d : RemoteOutcome) (n : Nat)
    (hst : sp.status.state = Created) (hz : sp.meta.deletionTimestampIsZero = true) :
    (passIter c d n sp).status = sp.status ∧
    ((Reconcile (FetchResult.found (passIter c d n sp)) c d).trace.all
      (fun e => !isRemote e)) = true ∧
    (Reconcile (FetchResult.found (passIter c d n sp)) c d).err = none := by
  induction n generalizing sp with
  | zero =>
      have h := pass_created_invariant sp c d hst hz
      exact ⟨rfl, h.2.2.2.1, h.2.2.2.2⟩
  | succ n ih =>
      have h := pass_created_invariant sp c d hst hz
      have hst' : (passOnce c d sp).status.state = Created := by rw [h.1]; exact hst
      have ih' := ih (passOnce c d sp) hst' h.2.2.1
      refine ⟨?_, ih'.2.1, ih'.2.2⟩
      show (passIter c d n (passOnce c d sp)).status = sp.status
      rw [ih'.1, h.1]

/-- Witness for the amended C7: three passes at a concrete Created
resource. -/
theorem C7_amended_witness :
    (passIter RemoteOutcome.ok RemoteOutcome.ok 3 spC7).status = spC7.status ∧
    ((Reconcile (FetchResult.found (passIter RemoteOutcome.ok RemoteOutcome.ok 3 spC7))
      RemoteOutcome.ok RemoteOutcome.ok).trace.all (fun e => !isRemote e)) = true ∧
    (Reconcile (FetchResult.found (passIter RemoteOutcome.ok RemoteOutcome.ok 3 spC7))
      RemoteOutcome.ok RemoteOutcome.ok).err = none :=
  C7_amended spC7 RemoteOutcome.ok RemoteOutcome.ok 3 rfl rfl

/-- The init-step trace has no remote calls. -/
theorem initStep_trace_no_remote (sp : SentryProject) :
    (initStep sp).2.all (fun e => !isRemote e) = true := by
  rw [initStep_trace]; split_ifs <;> simp [isRemote]

/-- The RemoveFinalizer trace has no remote calls. -/
theorem RemoveFinalizer_trace_no_remote (sp : SentryProject) :
    (RemoveFinalizer sp).2.all (fun e => !isRemote e) = true := by
  by_cases h : containsString sp.meta.finalizers SentryProjectFinalizer <;>
    simp [RemoveFinalizer, h, isRemote]

/-- A trace without remote calls vacuously has every remote call followed by
a status write. -/
theorem erfs_of_no_remote (tr : List Event)
    (h : tr.all (fun e => !isRemote e) = true) :
    everyRemoteFollowedByStatusWrite tr = true := by
  induction tr with
  | nil => rfl
  | cons e rest ih =>
      simp only [List.all_cons, Bool.and_eq_true, Bool.not_eq_true'] at h
      simp only [everyRemoteFollowedByStatusWrite, h.1, Bool.and_eq_true]
      exact ⟨by simp, ih h.2⟩

/-- The every-remote-followed-by-a-status-write property is preserved by
concatenation. -/
theorem erfs_append (t1 t2 : List Event)
    (h1 : everyRemoteFollowedByStatusWrite t1 = true)
    (h2 : everyRemoteFollowedByStatusWrite t2 = true) :
    everyRemoteFollowedByStatusWrite (t1 ++ t2) = true := by
  induction t1 with
  | nil => simpa using h2
  | cons e rest ih =>
      simp only [everyRemoteFollowedByStatusWrite, Bool.and_eq_true] at h1
      simp only [List.cons_append, everyRemoteFollowedByStatusWrite, Bool.and_eq_true]
      refine ⟨?_, ih h1.2⟩
      by_cases hr : isRemote e = true
      · have hh := h1.1
        rw [if_pos hr] at hh
        rw [if_pos hr]
        rw [List.any_eq_true] at hh ⊢
        obtain ⟨x, hx, hpx⟩ := hh
        exact ⟨x, List.mem_append_left _ hx, hpx⟩
      · simp [hr]

/-- A trace ending in a remote call fails the
every-remote-followed-by-a-status-write property: nothing follows the last
call. -/
theorem erfs_remote_last (tr : List Event) (e : Event) (he : isRemote e = true) :
    everyRemoteFollowedByStatusWrite (tr ++ [e]) = false := by
  induction tr with
  | nil => simp [everyRemoteFollowedByStatusWrite, he, isStatusWrite]
  | cons x rest ih =>
      simp [everyRemoteFollowedByStatusWrite, List.append_eq, ih]

/-- In the create-step trace, the create call is always followed by a status
write — on failure the classified state is written, and the unconditional
Created write follows in any case. -/
theorem createStep_trace_erfs (sp : SentryProject) (c : RemoteOutcome) :
    everyRemoteFollowedByStatusWrite (createStep sp c).2 = true := by
  rw [createStep_trace]
  split_ifs
  · cases c <;>
      simp [everyRemoteFollowedByStatusWrite, isRemote, isStatusWrite, CreateSentryProject]
  · rfl

/-- Statement of claim C8 as written: in every pass, every remote call is
followed later in the same pass by a status-store write — remote failures
included, on the create path and on the delete path. -/
def claimC8 : Prop :=
  ∀ (sp : SentryProject) (c d : RemoteOutcome),
    everyRemoteFollowedByStatusWrite (Reconcile (FetchResult.found sp) c d).trace = true

/-- Concrete resource for C8: deletion requested, state Created, finalizer
present. -/
def spC8 : SentryProject :=
  { meta := ⟨["sentry.io.x42r/finalizer"], false⟩,
    spec := ⟨"proj", "my-proj", "core", "go", "acme", "Update"⟩,
    status := ⟨"Created", "", [], ""⟩ }

/-- C8 counterexample: when the delete call fails with a 500 the pass aborts
immediately — the trace ends at the delete call with no status write after
it, so the failure is never recorded. -/
theorem C8_counterexample : ¬ claimC8 := by
  intro h
  exact absurd (h spC8 RemoteOutcome.ok (RemoteOutcome.errWith "boom" (some 500))) (by decide)

/-- C8 amended: every remote call of a pass is followed by a status write
exactly when the pass is not a deletion pass that reaches a delete call
failing with a non-404 error; on the create path failures are always
recorded (and then overwritten), while a delete failure aborts the pass with
no status write. -/
theorem C8_amended (sp : SentryProject) (c d : RemoteOutcome) :
    everyRemoteFollowedByStatusWrite (Reconcile (FetchResult.found sp) c d).trace = true ↔
      (sp.meta.deletionTimestampIsZero = true ∨ sp.status.state = Deleted ∨
        DeleteSentryProject d = none) := by
  have hmeta : (createStep (initStep sp).1 c).1.meta = sp.meta := by
    rw [createStep_meta, initStep_meta]
  have htr : everyRemoteFollowedByStatusWrite
      ((initStep sp).2 ++ (createStep (initStep sp).1 c).2) = true :=
    erfs_append _ _ (erfs_of_no_remote _ (initStep_trace_no_remote sp)) (createStep_trace_erfs _ _)
  by_cases hz : sp.meta.deletionTimestampIsZero = true
  · have hz2 : (createStep (initStep sp).1 c).1.meta.deletionTimestampIsZero = true := by
      rw [hmeta]; exact hz
    rw [Reconcile_found, finalizeStep_keep _ _ _ hz2]
    exact iff_of_true
      (erfs_append _ _ htr (erfs_of_no_remote _ (UpdateFinalizer_trace_no_remote _)))
      (Or.inl hz)
  · have hz' : sp.meta.deletionTimestampIsZero = false := Bool.eq_false_iff.mpr hz
    have hz2 : (createStep (initStep sp).1 c).1.meta.deletionTimestampIsZero = false := by
      rw [hmeta]; exact hz'
    by_cases hsd : sp.status.state = Deleted
    · have h1 : initStep sp = (sp, []) := by
        simp [initStep, hsd, Deleted]
      have h2 : createStep sp c = (sp, []) := by
        simp [createStep, hsd, Deleted, Pending, Failed]
      have hrec : Reconcile (FetchResult.found sp) c d =
          ⟨none, some (RemoveFinalizer sp).1, ([] ++ []) ++ (RemoveFinalizer sp).2⟩ := by
        rw [Reconcile_found, h1]
        simp only []
        rw [h2]
        exact finalizeStep_alreadyDeleted sp d ([] ++ []) hz' hsd
      rw [hrec]
      exact iff_of_true
        (by simpa using erfs_of_no_remote _ (RemoveFinalizer_trace_no_remote sp))
        (Or.inr (Or.inl hsd))
    · have hs2 := stepsState_ne_deleted sp c hsd
      cases hd : DeleteSentryProject d with
      | none =>
          rw [Reconcile_found, finalizeStep_delete_ok _ _ _ hz2 hs2 hd]
          refine iff_of_true ?_ (Or.inr (Or.inr rfl))
          refine erfs_append _ _ (erfs_append _ _ htr ?_)
            (erfs_of_no_remote _ (RemoveFinalizer_trace_no_remote _))
          simp [everyRemoteFollowedByStatusWrite, isRemote, isStatusWrite]
      | some m =>
          rw [Reconcile_found, finalizeStep_delete_err _ _ _ m hz2 hs2 hd]
          refine iff_of_false ?_ ?_
          · rw [erfs_remote_last _ _ (by simp [isRemote])]
            simp
          · rintro (h | h | h)
            · rw [hz'] at h; cases h
            · exact hsd h
            · exact Option.noConfusion h

/-- Witness for the amended C8: a deletion pass whose delete call returns
404 records its status. -/
theorem C8_amended_witness :
    everyRemoteFollowedByStatusWrite
      (Reconcile (FetchResult.found spC8) RemoteOutcome.ok
        (RemoteOutcome.errWith "missing" (some 404))).trace = true :=
  (C8_amended spC8 RemoteOutcome.ok (RemoteOutcome.errWith "missing" (some 404))).mpr
    (Or.inr (Or.inr rfl))

/-- Concrete resource with the finalizer marker present. -/
def spC9a : SentryProject :=
  { meta := ⟨["sentry.io.x42r/finalizer"], true⟩,
    spec := ⟨"proj", "my-proj", "core", "go", "acme", "Update"⟩,
    status := ⟨"Created", "", [], ""⟩ }

/-- Concrete resource with no finalizers. -/
def spC9b : SentryProject :=
  { meta := ⟨[], true⟩,
    spec := ⟨"proj", "my-proj", "core", "go", "acme", "Update"⟩,
    status := ⟨"Created", "", [], ""⟩ }

/-- Witness for C9 at concrete inputs: ensuring presence on a resource that
already has the marker and ensuring absence on one that lacks it are both
recorded no-ops. -/
theorem C9_finalizer_idempotent_witness :
    UpdateFinalizer spC9a = (spC9a, []) ∧ RemoveFinalizer spC9b = (spC9b, []) :=
  ⟨(C9_finalizer_idempotent spC9a).1 (by decide),
   (C9_finalizer_idempotent spC9b).2.1 (by decide)⟩
